import Mathlib

/-
Shallow embedding of src/src/OnsetDetectionFunction.cpp (the BTrack onset
detection function engine).

Modelling conventions:
- C float and double values are modelled as exact rationals, so the
  floating point arithmetic of the code is modelled as exact arithmetic.
- The forward Fourier transform (fftw) is an external primitive; following
  the specification it is treated as an injected capability, a parameter
  fft : List (Q x Q) -> List (Q x Q) over complex bins (re, im).
- The math.h functions sqrt, cos and atan2 are external primitives as well,
  collected in a MathPrims parameter.
- fftw_malloc returns uninitialised memory.  The model makes the contents
  of the freshly allocated transform buffers explicit parameters gIn, gOut
  of initialise (padded or truncated to the allocated length frameSize).
- Buffers are modelled as lists indexed by getD, and the C loops as maps
  over List.range; per index the value written is exactly the value the
  corresponding loop iteration stores.
-/

/-- External math primitives used by the code (sqrt, cos and atan2 from
math.h).  The engine is parameterised over them. -/
structure MathPrims where
  sqrt : ℚ → ℚ
  cos : ℚ → ℚ
  atan2 : ℚ → ℚ → ℚ

/-- Type of the injected forward Fourier transform primitive: a complex
buffer of frameSize bins to a complex buffer of frameSize bins. -/
abbrev FFT := List (ℚ × ℚ) → List (ℚ × ℚ)

/-- Modelled from the spec: the header declaring the onset detection
function type enum is not under src/; the ten variants are numbered in the
declaration order used by the switch in calculateOnsetDetectionFunctionSample. -/
def EnergyEnvelope : ℤ := 0

/-- Second variant of the onset detection function type enum. -/
def EnergyDifference : ℤ := 1

/-- Third variant of the onset detection function type enum. -/
def SpectralDifference : ℤ := 2

/-- Fourth variant of the onset detection function type enum. -/
def SpectralDifferenceHWR : ℤ := 3

/-- Fifth variant of the onset detection function type enum. -/
def PhaseDeviation : ℤ := 4

/-- Sixth variant of the onset detection function type enum. -/
def ComplexSpectralDifference : ℤ := 5

/-- Seventh variant of the onset detection function type enum. -/
def ComplexSpectralDifferenceHWR : ℤ := 6

/-- Eighth variant of the onset detection function type enum. -/
def HighFrequencyContent : ℤ := 7

/-- Ninth variant of the onset detection function type enum. -/
def HighFrequencySpectralDifference : ℤ := 8

/-- Tenth variant of the onset detection function type enum. -/
def HighFrequencySpectralDifferenceHWR : ℤ := 9

/-- Modelled from the spec: the window type enum from the missing header,
numbered in the declaration order used by the switch in initialise. -/
def RectangularWindow : ℤ := 0

/-- Second variant of the window type enum. -/
def HanningWindow : ℤ := 1

/-- Third variant of the window type enum. -/
def HammingWindow : ℤ := 2

/-- Fourth variant of the window type enum. -/
def BlackmanWindow : ℤ := 3

/-- Fifth variant of the window type enum. -/
def TukeyWindow : ℤ := 4

/-- State of one OnsetDetectionFunction instance: the member variables of
the C++ class. -/
structure OnsetDetectionFunction where
  initialised : Bool
  hopSize : ℤ
  frameSize : ℤ
  onsetDetectionFunctionType : ℤ
  windowType : ℤ
  frame : List ℚ
  window : List ℚ
  magSpec : List ℚ
  prevMagSpec : List ℚ
  phase : List ℚ
  prevPhase : List ℚ
  prevPhase2 : List ℚ
  prevEnergySum : ℚ
  complexIn : List (ℚ × ℚ)
  complexOut : List (ℚ × ℚ)

namespace OnsetDetectionFunction

/-- Value of the pi member variable, set in the constructors:
pi = 3.14159265358979 (a literal, not the mathematical constant). -/
def pi : ℚ := 3.14159265358979

/-- Semantics of std::vector::resize n: keep the first n elements, value
initialise (zero) any newly created elements. -/
def resizeQ (n : ℕ) (l : List ℚ) : List ℚ :=
  l.take n ++ List.replicate (n - l.length) 0

/-- Resize for the complex buffers, padding with (0, 0). -/
def resizeC (n : ℕ) (l : List (ℚ × ℚ)) : List (ℚ × ℚ) :=
  l.take n ++ List.replicate (n - l.length) (0, 0)

/-- Window computation calculateRectangularWindow: window[n] = 1.0 for all n. -/
def calculateRectangularWindow (frameSize : ℤ) : List ℚ :=
  (List.range frameSize.toNat).map fun _ => 1.0

/-- Window computation calculateHanningWindow:
window[n] = 0.5*(1-cos(2*pi*(n/N))) with N = frameSize - 1. -/
def calculateHanningWindow (prims : MathPrims) (frameSize : ℤ) : List ℚ :=
  let N : ℚ := ((frameSize - 1 : ℤ) : ℚ)
  (List.range frameSize.toNat).map fun n =>
    0.5 * (1 - prims.cos (2 * pi * ((n : ℚ) / N)))

/-- Window computation calclulateHammingWindow (sic):
window[n] = 0.54 - 0.46*cos(2*pi*(n/N)) with N = frameSize - 1. -/
def calclulateHammingWindow (prims : MathPrims) (frameSize : ℤ) : List ℚ :=
  let N : ℚ := ((frameSize - 1 : ℤ) : ℚ)
  (List.range frameSize.toNat).map fun n =>
    0.54 - 0.46 * prims.cos (2 * pi * ((n : ℚ) / N))

/-- Window computation calculateBlackmanWindow:
window[n] = 0.42 - 0.5*cos(2*pi*(n/N)) + 0.08*cos(4*pi*(n/N)). -/
def calculateBlackmanWindow (prims : MathPrims) (frameSize : ℤ) : List ℚ :=
  let N : ℚ := ((frameSize - 1 : ℤ) : ℚ)
  (List.range frameSize.toNat).map fun n =>
    0.42 - 0.5 * prims.cos (2 * pi * ((n : ℚ) / N))
      + 0.08 * prims.cos (4 * pi * ((n : ℚ) / N))

/-- Window computation calculateTukeyWindow with alpha = 0.5; the running
index n_val starts at -(frameSize/2)+1 (integer division) and increments
with n. -/
def calculateTukeyWindow (prims : MathPrims) (frameSize : ℤ) : List ℚ :=
  let N : ℚ := ((frameSize - 1 : ℤ) : ℚ)
  let alpha : ℚ := 0.5
  (List.range frameSize.toNat).map fun n =>
    let n_val : ℚ := ((-(frameSize / 2) + 1 + (n : ℤ) : ℤ) : ℚ)
    if 0 ≤ n_val ∧ n_val ≤ alpha * (N / 2) then 1.0
    else if n_val ≤ 0 ∧ -1 * alpha * (N / 2) ≤ n_val then 1.0
    else 0.5 * (1 + prims.cos (pi * ((2 * n_val) / (alpha * N) - 1)))

/-- Method initialise(hopSize_, frameSize_, onsetDetectionFunctionType_,
windowType_): stores the sizes and kinds, resizes every buffer to
frameSize, computes the window for the selected window type (default:
Hanning), zero fills frame and the history buffers, zeroes prevEnergySum,
allocates the transform buffers (gIn, gOut are the uninitialised contents
fftw_malloc hands back) and sets initialised to true.  The code performs
no validation of the arguments. -/
def initialise (gIn gOut : List (ℚ × ℚ))
    (hopSize_ frameSize_ onsetDetectionFunctionType_ windowType_ : ℤ)
    (prims : MathPrims) (s : OnsetDetectionFunction) : OnsetDetectionFunction :=
  let N := frameSize_.toNat
  let w :=
    if windowType_ = RectangularWindow then calculateRectangularWindow frameSize_
    else if windowType_ = HanningWindow then calculateHanningWindow prims frameSize_
    else if windowType_ = HammingWindow then calclulateHammingWindow prims frameSize_
    else if windowType_ = BlackmanWindow then calculateBlackmanWindow prims frameSize_
    else if windowType_ = TukeyWindow then calculateTukeyWindow prims frameSize_
    else calculateHanningWindow prims frameSize_
  { initialised := true
    hopSize := hopSize_
    frameSize := frameSize_
    onsetDetectionFunctionType := onsetDetectionFunctionType_
    windowType := windowType_
    -- the zero fill loop writes indices 0 .. frameSize-1, i.e. the whole
    -- resized vector, so the result is a zero list of length frameSize
    frame := List.replicate N 0
    window := w
    magSpec := resizeQ N s.magSpec
    prevMagSpec := List.replicate N 0
    phase := resizeQ N s.phase
    prevPhase := List.replicate N 0
    prevPhase2 := List.replicate N 0
    prevEnergySum := 0
    complexIn := resizeC N gIn
    complexOut := resizeC N gOut }

/-- Method setOnsetDetectionFunctionType: assigns the type member and
nothing else. -/
def setOnsetDetectionFunctionType (onsetDetectionFunctionType_ : ℤ)
    (s : OnsetDetectionFunction) : OnsetDetectionFunction :=
  { s with onsetDetectionFunctionType := onsetDetectionFunctionType_ }

/-- Contents of complexIn after the write loop of performFFT: for
i < fsize2, cell i gets windowed sample i+fsize2 and cell i+fsize2 gets
windowed sample i (imaginary parts zero); cells at index at least
2*fsize2 (the last cell, when frameSize is odd) are never written and keep
their previous contents. -/
def windowAndSwap (frame window : List ℚ) (complexIn : List (ℚ × ℚ))
    (N : ℕ) : List (ℚ × ℚ) :=
  let fsize2 := N / 2
  (List.range N).map fun i =>
    if i < fsize2 then
      (frame.getD (i + fsize2) 0 * window.getD (i + fsize2) 0, 0)
    else if i < fsize2 + fsize2 then
      (frame.getD (i - fsize2) 0 * window.getD (i - fsize2) 0, 0)
    else
      complexIn.getD i (0, 0)

/-- Method performFFT: windows the frame into complexIn, swapping the first
and second halves, then runs the transform into complexOut. -/
def performFFT (fft : FFT) (s : OnsetDetectionFunction) : OnsetDetectionFunction :=
  let cin := windowAndSwap s.frame s.window s.complexIn s.frameSize.toNat
  { s with complexIn := cin, complexOut := fft cin }

/-- Magnitude of output bin i as the code computes it:
sqrt(pow(complexOut[i][0],2) + pow(complexOut[i][1],2)). -/
def magAt (prims : MathPrims) (out : List (ℚ × ℚ)) (i : ℕ) : ℚ :=
  prims.sqrt ((out.getD i (0, 0)).1 ^ 2 + (out.getD i (0, 0)).2 ^ 2)

/-- Magnitude spectrum as computed by spectralDifference and
spectralDifferenceHWR: bins 0 .. N/2 from the transform output, bins above
mirrored as magSpec[i] = magSpec[N-i]. -/
def magSpecMirrored (prims : MathPrims) (out : List (ℚ × ℚ)) (N : ℕ) : List ℚ :=
  (List.range N).map fun i =>
    if i < N / 2 + 1 then magAt prims out i else magAt prims out (N - i)

/-- Magnitude spectrum as computed by the phase based and high frequency
metrics: every bin directly from the transform output. -/
def magSpecFull (prims : MathPrims) (out : List (ℚ × ℚ)) (N : ℕ) : List ℚ :=
  (List.range N).map fun i => magAt prims out i

/-- Phase spectrum phase[i] = atan2(complexOut[i][1], complexOut[i][0]). -/
def phaseList (prims : MathPrims) (out : List (ℚ × ℚ)) (N : ℕ) : List ℚ :=
  (List.range N).map fun i =>
    prims.atan2 (out.getD i (0, 0)).2 (out.getD i (0, 0)).1

/-- Per index copy loop target[i] = source[i] for i < N, as executed on
vectors of length N. -/
def copyN (N : ℕ) (l : List ℚ) : List ℚ :=
  (List.range N).map fun i => l.getD i 0

/-- Helper princargAddLoop: the first while loop of princarg, adding 2*pi
while the value is less than or equal to -pi. -/
def princargAddLoop (phaseVal : ℚ) : ℚ :=
  if h : phaseVal ≤ -pi then princargAddLoop (phaseVal + 2 * pi) else phaseVal
termination_by (⌊(-pi - phaseVal) / (2 * pi)⌋ + 1).toNat
decreasing_by
  have hp : (0 : ℚ) < 2 * pi := by norm_num [pi]
  have h1 : -pi - (phaseVal + 2 * pi) = (-pi - phaseVal) - 2 * pi := by ring
  rw [h1, sub_div, div_self hp.ne', Int.floor_sub_one]
  have h0 : 0 ≤ ⌊(-pi - phaseVal) / (2 * pi)⌋ :=
    Int.floor_nonneg.mpr (div_nonneg (by linarith) hp.le)
  omega

/-- Helper princargSubLoop: the second while loop of princarg, subtracting
2*pi while the value is larger than pi. -/
def princargSubLoop (phaseVal : ℚ) : ℚ :=
  if h : pi < phaseVal then princargSubLoop (phaseVal - 2 * pi) else phaseVal
termination_by (⌊(phaseVal - pi) / (2 * pi)⌋ + 1).toNat
decreasing_by
  have hp : (0 : ℚ) < 2 * pi := by norm_num [pi]
  have h1 : (phaseVal - 2 * pi) - pi = (phaseVal - pi) - 2 * pi := by ring
  rw [h1, sub_div, div_self hp.ne', Int.floor_sub_one]
  have h0 : 0 ≤ ⌊(phaseVal - pi) / (2 * pi)⌋ :=
    Int.floor_nonneg.mpr (div_nonneg (by linarith) hp.le)
  omega

/-- Method princarg: add 2*pi while the value is at most -pi, then subtract
2*pi while it exceeds pi. -/
def princarg (phaseVal : ℚ) : ℚ :=
  princargSubLoop (princargAddLoop phaseVal)

/-- Method energyEnvelope: sum of squared frame samples; no state change. -/
def energyEnvelope (s : OnsetDetectionFunction) : ℚ :=
  ((List.range s.frameSize.toNat).map fun i =>
    s.frame.getD i 0 * s.frame.getD i 0).sum

/-- Method energyDifference: difference between the current energy sum and
prevEnergySum, half wave rectified; stores the current sum in
prevEnergySum. -/
def energyDifference (s : OnsetDetectionFunction) : ℚ × OnsetDetectionFunction :=
  let sum := ((List.range s.frameSize.toNat).map fun i =>
    s.frame.getD i 0 * s.frame.getD i 0).sum
  let sample := sum - s.prevEnergySum
  (if 0 < sample then sample else 0, { s with prevEnergySum := sum })

/-- Method spectralDifference: FFT, mirrored magnitude spectrum, sum of
absolute bin differences against prevMagSpec; stores the magnitude spectrum
in prevMagSpec. -/
def spectralDifference (fft : FFT) (prims : MathPrims)
    (s : OnsetDetectionFunction) : ℚ × OnsetDetectionFunction :=
  let s1 := performFFT fft s
  let N := s1.frameSize.toNat
  let mag := magSpecMirrored prims s1.complexOut N
  let total := ((List.range N).map fun i =>
    let diff := mag.getD i 0 - s1.prevMagSpec.getD i 0
    if diff < 0 then -diff else diff).sum
  (total, { s1 with magSpec := mag, prevMagSpec := mag })

/-- Method spectralDifferenceHWR: like spectralDifference but only positive
differences contribute to the sum. -/
def spectralDifferenceHWR (fft : FFT) (prims : MathPrims)
    (s : OnsetDetectionFunction) : ℚ × OnsetDetectionFunction :=
  let s1 := performFFT fft s
  let N := s1.frameSize.toNat
  let mag := magSpecMirrored prims s1.complexOut N
  let total := ((List.range N).map fun i =>
    let diff := mag.getD i 0 - s1.prevMagSpec.getD i 0
    if 0 < diff then diff else 0).sum
  (total, { s1 with magSpec := mag, prevMagSpec := mag })

/-- Method phaseDeviation: FFT, phases and magnitudes of every bin; bins
with magnitude above 0.1 contribute the absolute princarg wrapped second
phase difference; the phase history is shifted for every bin. -/
def phaseDeviation (fft : FFT) (prims : MathPrims)
    (s : OnsetDetectionFunction) : ℚ × OnsetDetectionFunction :=
  let s1 := performFFT fft s
  let N := s1.frameSize.toNat
  let ph := phaseList prims s1.complexOut N
  let mag := magSpecFull prims s1.complexOut N
  let total := ((List.range N).map fun i =>
    if 0.1 < mag.getD i 0 then
      let dev := ph.getD i 0 - 2 * s1.prevPhase.getD i 0 + s1.prevPhase2.getD i 0
      let pdev := princarg dev
      if pdev < 0 then -pdev else pdev
    else 0).sum
  (total, { s1 with phase := ph, magSpec := mag,
                    prevPhase2 := copyN N s1.prevPhase, prevPhase := ph })

/-- Method complexSpectralDifference: for every bin, law of cosines
distance between the current and previous magnitudes under the raw phase
deviation angle; updates magnitude and phase history for every bin. -/
def complexSpectralDifference (fft : FFT) (prims : MathPrims)
    (s : OnsetDetectionFunction) : ℚ × OnsetDetectionFunction :=
  let s1 := performFFT fft s
  let N := s1.frameSize.toNat
  let ph := phaseList prims s1.complexOut N
  let mag := magSpecFull prims s1.complexOut N
  let total := ((List.range N).map fun i =>
    let phaseDev := ph.getD i 0 - 2 * s1.prevPhase.getD i 0 + s1.prevPhase2.getD i 0
    prims.sqrt (mag.getD i 0 ^ 2 + s1.prevMagSpec.getD i 0 ^ 2
      - 2 * mag.getD i 0 * s1.prevMagSpec.getD i 0 * prims.cos phaseDev)).sum
  (total, { s1 with phase := ph, magSpec := mag,
                    prevPhase2 := copyN N s1.prevPhase, prevPhase := ph,
                    prevMagSpec := mag })

/-- Method complexSpectralDifferenceHWR: like complexSpectralDifference but
a bin contributes only when its magnitude increased. -/
def complexSpectralDifferenceHWR (fft : FFT) (prims : MathPrims)
    (s : OnsetDetectionFunction) : ℚ × OnsetDetectionFunction :=
  let s1 := performFFT fft s
  let N := s1.frameSize.toNat
  let ph := phaseList prims s1.complexOut N
  let mag := magSpecFull prims s1.complexOut N
  let total := ((List.range N).map fun i =>
    let phaseDev := ph.getD i 0 - 2 * s1.prevPhase.getD i 0 + s1.prevPhase2.getD i 0
    if 0 < mag.getD i 0 - s1.prevMagSpec.getD i 0 then
      prims.sqrt (mag.getD i 0 ^ 2 + s1.prevMagSpec.getD i 0 ^ 2
        - 2 * mag.getD i 0 * s1.prevMagSpec.getD i 0 * prims.cos phaseDev)
    else 0).sum
  (total, { s1 with phase := ph, magSpec := mag,
                    prevPhase2 := copyN N s1.prevPhase, prevPhase := ph,
                    prevMagSpec := mag })

/-- Method highFrequencyContent: sum of magnitude times (i+1) over all
bins; stores the magnitude spectrum in prevMagSpec. -/
def highFrequencyContent (fft : FFT) (prims : MathPrims)
    (s : OnsetDetectionFunction) : ℚ × OnsetDetectionFunction :=
  let s1 := performFFT fft s
  let N := s1.frameSize.toNat
  let mag := magSpecFull prims s1.complexOut N
  let total := ((List.range N).map fun i =>
    mag.getD i 0 * ((i : ℚ) + 1)).sum
  (total, { s1 with magSpec := mag, prevMagSpec := mag })

/-- Method highFrequencySpectralDifference: sum of absolute magnitude
differences weighted by (i+1). -/
def highFrequencySpectralDifference (fft : FFT) (prims : MathPrims)
    (s : OnsetDetectionFunction) : ℚ × OnsetDetectionFunction :=
  let s1 := performFFT fft s
  let N := s1.frameSize.toNat
  let mag := magSpecFull prims s1.complexOut N
  let total := ((List.range N).map fun i =>
    let mag_diff := mag.getD i 0 - s1.prevMagSpec.getD i 0
    (if mag_diff < 0 then -mag_diff else mag_diff) * ((i : ℚ) + 1)).sum
  (total, { s1 with magSpec := mag, prevMagSpec := mag })

/-- Method highFrequencySpectralDifferenceHWR: like
highFrequencySpectralDifference but only positive differences contribute. -/
def highFrequencySpectralDifferenceHWR (fft : FFT) (prims : MathPrims)
    (s : OnsetDetectionFunction) : ℚ × OnsetDetectionFunction :=
  let s1 := performFFT fft s
  let N := s1.frameSize.toNat
  let mag := magSpecFull prims s1.complexOut N
  let total := ((List.range N).map fun i =>
    let mag_diff := mag.getD i 0 - s1.prevMagSpec.getD i 0
    if 0 < mag_diff then mag_diff * ((i : ℚ) + 1) else 0).sum
  (total, { s1 with magSpec := mag, prevMagSpec := mag })

/-- Dispatch block of calculateOnsetDetectionFunctionSample: the switch on
onsetDetectionFunctionType, with default result 1.0. -/
def applyMetric (fft : FFT) (prims : MathPrims)
    (s : OnsetDetectionFunction) : ℚ × OnsetDetectionFunction :=
  let t := s.onsetDetectionFunctionType
  if t = EnergyEnvelope then (energyEnvelope s, s)
  else if t = EnergyDifference then energyDifference s
  else if t = SpectralDifference then spectralDifference fft prims s
  else if t = SpectralDifferenceHWR then spectralDifferenceHWR fft prims s
  else if t = PhaseDeviation then phaseDeviation fft prims s
  else if t = ComplexSpectralDifference then complexSpectralDifference fft prims s
  else if t = ComplexSpectralDifferenceHWR then complexSpectralDifferenceHWR fft prims s
  else if t = HighFrequencyContent then highFrequencyContent fft prims s
  else if t = HighFrequencySpectralDifference then highFrequencySpectralDifference fft prims s
  else if t = HighFrequencySpectralDifferenceHWR then highFrequencySpectralDifferenceHWR fft prims s
  else (1.0, s)

/-- Frame update loop of calculateOnsetDetectionFunctionSample: samples
shift left by hopSize positions, the buffer fills the freed tail. -/
def shiftFrame (s : OnsetDetectionFunction) (buffer : List ℚ) : List ℚ :=
  let N := s.frameSize.toNat
  let shiftN := (s.frameSize - s.hopSize).toNat
  (List.range N).map fun i =>
    if i < shiftN then s.frame.getD (i + s.hopSize.toNat) 0
    else buffer.getD (i - shiftN) 0

/-- Method calculateOnsetDetectionFunctionSample: shifts the frame left by
hopSize samples, appends the buffer contents at the end, then dispatches on
the selected onset detection function type. -/
def calculateOnsetDetectionFunctionSample (fft : FFT) (prims : MathPrims)
    (buffer : List ℚ) (s : OnsetDetectionFunction) : ℚ × OnsetDetectionFunction :=
  applyMetric fft prims { s with frame := shiftFrame s buffer }

/-- Harness: feed a sequence of hop sized chunks through consecutive calls
to calculateOnsetDetectionFunctionSample, keeping the final state. -/
def processChunks (fft : FFT) (prims : MathPrims)
    (s : OnsetDetectionFunction) (chunks : List (List ℚ)) : OnsetDetectionFunction :=
  chunks.foldl (fun st c => (calculateOnsetDetectionFunctionSample fft prims c st).2) s

/-- Concrete blank object state, standing for a freshly constructed object
before initialise has run. -/
def mkBlank : OnsetDetectionFunction :=
  { initialised := false, hopSize := 0, frameSize := 0,
    onsetDetectionFunctionType := 0, windowType := 0,
    frame := [], window := [], magSpec := [], prevMagSpec := [],
    phase := [], prevPhase := [], prevPhase2 := [], prevEnergySum := 0,
    complexIn := [], complexOut := [] }

/-- Trivial concrete math primitives, usable wherever a claim only
constrains a few of their values. -/
def zeroPrims : MathPrims :=
  { sqrt := fun _ => 0, cos := fun _ => 0, atan2 := fun _ _ => 0 }

/-- Exact two point discrete Fourier transform: X0 = x0 + x1 and
X1 = x0 - x1, the true DFT for frameSize two (its twiddle factors are
plus and minus one, so it is exact over the rationals). -/
def dft2 : FFT := fun l =>
  match l with
  | [a, b] => [(a.1 + b.1, a.2 + b.2), (a.1 - b.1, a.2 - b.2)]
  | _ => l

/-- Concrete math primitives pinned at the argument values the complex
spectral difference counterexample reaches; at every reached point they
return the value the double precision sqrt, cos and atan2 would (sqrt of
0, 1 and 4; cos of 0 and of minus pi up to the precision of the pi
literal; atan2 of 0 with positive and negative first operand). -/
def csdPrims : MathPrims :=
  { sqrt := fun q => if q = 4 then 2 else if q = 1 then 1 else 0
    cos := fun q => if q = 0 then 1 else if q = -pi then -1 else 0
    atan2 := fun _ x => if x < 0 then pi else 0 }

/-- Concrete math primitives for the odd frame size counterexample: the
square root of one is one, every other reached value is zero. -/
def oddPrims : MathPrims :=
  { sqrt := fun q => if q = 1 then 1 else 0
    cos := fun _ => 1
    atan2 := fun _ _ => 0 }

end OnsetDetectionFunction

namespace OnsetDetectionFunction

/-- Reading a mapped range list inside its bounds gives the mapped value. -/
theorem getD_map_range {α : Type} (f : ℕ → α) (d : α) {i N : ℕ} (h : i < N) :
    ((List.range N).map f).getD i d = f i := by
  rw [List.getD_eq_getElem _ _ (by simpa using h)]
  simp

/-- Reading a zero filled rational buffer gives zero at every index. -/
theorem getD_replicate_zero (n i : ℕ) : (List.replicate n (0 : ℚ)).getD i 0 = 0 := by
  rcases lt_or_le i n with h | h
  · rw [List.getD_eq_getElem _ _ (by simpa using h)]
    simp
  · rw [List.getD_eq_default _ _ (by simpa using h)]

/-- Reading a zero filled complex buffer gives (0, 0) at every index. -/
theorem getD_replicate_zeroC (n i : ℕ) :
    (List.replicate n ((0 : ℚ), (0 : ℚ))).getD i (0, 0) = (0, 0) := by
  rcases lt_or_le i n with h | h
  · rw [List.getD_eq_getElem _ _ (by simpa using h)]
    simp
  · rw [List.getD_eq_default _ _ (by simpa using h)]

/-- Sum over a mapped range of pointwise nonnegative values is nonnegative. -/
theorem sum_map_range_nonneg (N : ℕ) (f : ℕ → ℚ) (h : ∀ i, i < N → 0 ≤ f i) :
    0 ≤ ((List.range N).map f).sum := by
  apply List.sum_nonneg
  intro x hx
  obtain ⟨i, hi, rfl⟩ := List.mem_map.mp hx
  exact h i (List.mem_range.mp hi)

/-- Sum over a mapped range of pointwise zero values is zero. -/
theorem sum_map_range_eq_zero (N : ℕ) (f : ℕ → ℚ) (h : ∀ i, i < N → f i = 0) :
    ((List.range N).map f).sum = 0 := by
  apply List.sum_eq_zero
  intro x hx
  obtain ⟨i, hi, rfl⟩ := List.mem_map.mp hx
  exact h i (List.mem_range.mp hi)

/-- C7: setOnsetDetectionFunctionType changes only which metric future
calls compute: the frame buffer, window coefficients, previous magnitude
spectrum, previous two phase spectra, previous energy sum, hop size and
frame size are all unchanged; only the type member is assigned. -/
theorem setType_changes_only_metric (t : ℤ) (s : OnsetDetectionFunction) :
    (setOnsetDetectionFunctionType t s).frame = s.frame ∧
    (setOnsetDetectionFunctionType t s).window = s.window ∧
    (setOnsetDetectionFunctionType t s).prevMagSpec = s.prevMagSpec ∧
    (setOnsetDetectionFunctionType t s).prevPhase = s.prevPhase ∧
    (setOnsetDetectionFunctionType t s).prevPhase2 = s.prevPhase2 ∧
    (setOnsetDetectionFunctionType t s).prevEnergySum = s.prevEnergySum ∧
    (setOnsetDetectionFunctionType t s).hopSize = s.hopSize ∧
    (setOnsetDetectionFunctionType t s).frameSize = s.frameSize ∧
    (setOnsetDetectionFunctionType t s).onsetDetectionFunctionType = t :=
  ⟨rfl, rfl, rfl, rfl, rfl, rfl, rfl, rfl, rfl⟩

/-- C1 counterexample: calling initialise with hopSize = 5 greater than
frameSize = 3 (both positive) does not fail and does not leave the engine
in a non ready state: the code performs no validation and sets
initialised to true. -/
theorem initialise_no_validation_counterexample :
    (3 : ℤ) < 5 ∧
    (initialise [] [] 5 3 EnergyEnvelope HanningWindow zeroPrims mkBlank).initialised
      = true :=
  ⟨by norm_num, rfl⟩

/-- C1 amended: initialise performs no validation of its arguments: for
every hopSize and frameSize, including hopSize greater than frameSize and
non positive values, it stores the sizes, resets the history and marks the
engine ready (initialised = true); no configuration error is reported. -/
theorem initialise_accepts_all_sizes (gIn gOut : List (ℚ × ℚ))
    (h f t w : ℤ) (prims : MathPrims) (s : OnsetDetectionFunction) :
    (initialise gIn gOut h f t w prims s).initialised = true ∧
    (initialise gIn gOut h f t w prims s).hopSize = h ∧
    (initialise gIn gOut h f t w prims s).frameSize = f ∧
    (initialise gIn gOut h f t w prims s).prevEnergySum = 0 :=
  ⟨rfl, rfl, rfl, rfl⟩

/-- C8: a metric kind outside the ten defined variants makes
calculateOnsetDetectionFunctionSample return the constant 1.0 (no
failure), and a window kind outside the five defined variants makes
initialise compute the Hanning window coefficients. -/
theorem unknown_kind_fallbacks :
    (∀ (fft : FFT) (prims : MathPrims) (buffer : List ℚ)
        (s : OnsetDetectionFunction),
      (s.onsetDetectionFunctionType < 0 ∨ 9 < s.onsetDetectionFunctionType) →
      (calculateOnsetDetectionFunctionSample fft prims buffer s).1 = 1.0) ∧
    (∀ (gIn gOut : List (ℚ × ℚ)) (h f t w : ℤ) (prims : MathPrims)
        (s : OnsetDetectionFunction),
      (w < 0 ∨ 4 < w) →
      (initialise gIn gOut h f t w prims s).window
        = calculateHanningWindow prims f) := by
  constructor
  · intro fft prims buffer s ht
    have h0 : ¬ s.onsetDetectionFunctionType = EnergyEnvelope := by
      unfold EnergyEnvelope; omega
    have h1 : ¬ s.onsetDetectionFunctionType = EnergyDifference := by
      unfold EnergyDifference; omega
    have h2 : ¬ s.onsetDetectionFunctionType = SpectralDifference := by
      unfold SpectralDifference; omega
    have h3 : ¬ s.onsetDetectionFunctionType = SpectralDifferenceHWR := by
      unfold SpectralDifferenceHWR; omega
    have h4 : ¬ s.onsetDetectionFunctionType = PhaseDeviation := by
      unfold PhaseDeviation; omega
    have h5 : ¬ s.onsetDetectionFunctionType = ComplexSpectralDifference := by
      unfold ComplexSpectralDifference; omega
    have h6 : ¬ s.onsetDetectionFunctionType = ComplexSpectralDifferenceHWR := by
      unfold ComplexSpectralDifferenceHWR; omega
    have h7 : ¬ s.onsetDetectionFunctionType = HighFrequencyContent := by
      unfold HighFrequencyContent; omega
    have h8 : ¬ s.onsetDetectionFunctionType = HighFrequencySpectralDifference := by
      unfold HighFrequencySpectralDifference; omega
    have h9 : ¬ s.onsetDetectionFunctionType = HighFrequencySpectralDifferenceHWR := by
      unfold HighFrequencySpectralDifferenceHWR; omega
    simp [calculateOnsetDetectionFunctionSample, applyMetric,
      h0, h1, h2, h3, h4, h5, h6, h7, h8, h9]
  · intro gIn gOut h f t w prims s hw
    have h0 : ¬ w = RectangularWindow := by unfold RectangularWindow; omega
    have h1 : ¬ w = HanningWindow := by unfold HanningWindow; omega
    have h2 : ¬ w = HammingWindow := by unfold HammingWindow; omega
    have h3 : ¬ w = BlackmanWindow := by unfold BlackmanWindow; omega
    have h4 : ¬ w = TukeyWindow := by unfold TukeyWindow; omega
    simp [initialise, h0, h1, h2, h3, h4]

/-- C8 witness: with metric kind 10 the call returns 1.0, and with window
kind 99 initialise computes the Hanning window. -/
theorem unknown_kind_fallbacks_witness :
    (calculateOnsetDetectionFunctionSample id zeroPrims [0]
      (setOnsetDetectionFunctionType 10
        (initialise [] [] 1 2 0 1 zeroPrims mkBlank))).1 = 1.0 ∧
    (initialise [] [] 1 2 0 99 zeroPrims mkBlank).window
      = calculateHanningWindow zeroPrims 2 :=
  ⟨unknown_kind_fallbacks.1 id zeroPrims [0] _
      (Or.inr (by norm_num [setOnsetDetectionFunctionType, initialise])),
   unknown_kind_fallbacks.2 [] [] 1 2 0 99 zeroPrims mkBlank
      (Or.inr (by norm_num))⟩

/-- Behaviour of the first while loop of princarg: the result is above
-pi, stays at most pi when the input was, and inputs above -pi are
returned unchanged. -/
theorem princargAddLoop_spec (x : ℚ) :
    -pi < princargAddLoop x ∧ (x ≤ pi → princargAddLoop x ≤ pi) ∧
    (-pi < x → princargAddLoop x = x) := by
  induction x using princargAddLoop.induct with
  | case1 x h ih =>
    rw [princargAddLoop, dif_pos h]
    refine ⟨ih.1, fun _ => ?_, fun hx => absurd hx (not_lt.mpr h)⟩
    have hpi : (0 : ℚ) < pi := by norm_num [pi]
    exact ih.2.1 (by linarith)
  | case2 x h =>
    rw [princargAddLoop, dif_neg h]
    push_neg at h
    exact ⟨h, fun hx => hx, fun _ => rfl⟩

/-- Behaviour of the second while loop of princarg: the result is at most
pi, stays above -pi when the input was, and inputs at most pi are returned
unchanged. -/
theorem princargSubLoop_spec (x : ℚ) :
    princargSubLoop x ≤ pi ∧ (-pi < x → -pi < princargSubLoop x) ∧
    (x ≤ pi → princargSubLoop x = x) := by
  induction x using princargSubLoop.induct with
  | case1 x h ih =>
    rw [princargSubLoop, dif_pos h]
    refine ⟨ih.1, fun _ => ?_, fun hx => absurd hx (not_le.mpr h)⟩
    have hpi : (0 : ℚ) < pi := by norm_num [pi]
    exact ih.2.1 (by linarith)
  | case2 x h =>
    rw [princargSubLoop, dif_neg h]
    push_neg at h
    exact ⟨h, fun hx => hx, fun _ => rfl⟩

/-- C4: princarg maps every input into the half open interval (-pi, pi],
is idempotent, and is the identity on inputs already in that interval
(pi being the literal 3.14159265358979 the code uses). -/
theorem princarg_range_idempotent_identity :
    (∀ x : ℚ, -pi < princarg x ∧ princarg x ≤ pi) ∧
    (∀ x : ℚ, princarg (princarg x) = princarg x) ∧
    (∀ x : ℚ, -pi < x → x ≤ pi → princarg x = x) := by
  have hmem : ∀ x : ℚ, -pi < princarg x ∧ princarg x ≤ pi := by
    intro x
    have ha := princargAddLoop_spec x
    have hs := princargSubLoop_spec (princargAddLoop x)
    exact ⟨hs.2.1 ha.1, hs.1⟩
  have hid : ∀ x : ℚ, -pi < x → x ≤ pi → princarg x = x := by
    intro x h1 h2
    unfold princarg
    rw [(princargAddLoop_spec x).2.2 h1, (princargSubLoop_spec x).2.2 h2]
  exact ⟨hmem, fun x => hid _ (hmem x).1 (hmem x).2, hid⟩

/-- C4 witness: the input 1 lies in (-pi, pi] and princarg returns it
unchanged. -/
theorem princarg_identity_witness : -pi < (1 : ℚ) ∧ (1 : ℚ) ≤ pi ∧ princarg 1 = 1 :=
  ⟨by norm_num [pi], by norm_num [pi],
   princarg_range_idempotent_identity.2.2 1 (by norm_num [pi]) (by norm_num [pi])⟩

/-- C5: on the same engine state (same frame, same previous magnitude
spectrum) the half wave rectified spectral difference never exceeds the
full spectral difference. -/
theorem spectralDifferenceHWR_le (fft : FFT) (prims : MathPrims)
    (s : OnsetDetectionFunction) :
    (spectralDifferenceHWR fft prims s).1 ≤ (spectralDifference fft prims s).1 := by
  unfold spectralDifference spectralDifferenceHWR
  dsimp only
  apply List.sum_le_sum
  intro i _
  dsimp only
  split_ifs <;> linarith

/-- C10: phaseDeviation shifts the phase history for every bin, including
the low magnitude bins excluded from the sum: afterwards prevPhase2 holds
the old prevPhase and prevPhase holds the freshly computed phase. -/
theorem phaseDeviation_updates_history (fft : FFT) (prims : MathPrims)
    (s : OnsetDetectionFunction) (i : ℕ) (hi : i < s.frameSize.toNat) :
    ((phaseDeviation fft prims s).2.prevPhase2.getD i 0 = s.prevPhase.getD i 0) ∧
    ((phaseDeviation fft prims s).2.prevPhase.getD i 0
      = (phaseDeviation fft prims s).2.phase.getD i 0) := by
  have h1 : (phaseDeviation fft prims s).2.prevPhase2
      = copyN s.frameSize.toNat s.prevPhase := rfl
  have h2 : (phaseDeviation fft prims s).2.prevPhase
      = (phaseDeviation fft prims s).2.phase := rfl
  refine ⟨?_, by rw [h2]⟩
  rw [h1]
  unfold copyN
  rw [getD_map_range _ _ hi]

/-- C10 witness: on a concretely initialised engine of frame size one, a
phaseDeviation call shifts the phase history at bin zero. -/
theorem phaseDeviation_updates_history_witness :
    ((phaseDeviation id zeroPrims
        (initialise [] [] 1 1 PhaseDeviation RectangularWindow zeroPrims
          mkBlank)).2.prevPhase2.getD 0 0
      = (initialise [] [] 1 1 PhaseDeviation RectangularWindow zeroPrims
          mkBlank).prevPhase.getD 0 0) ∧
    ((phaseDeviation id zeroPrims
        (initialise [] [] 1 1 PhaseDeviation RectangularWindow zeroPrims
          mkBlank)).2.prevPhase.getD 0 0
      = (phaseDeviation id zeroPrims
        (initialise [] [] 1 1 PhaseDeviation RectangularWindow zeroPrims
          mkBlank)).2.phase.getD 0 0) :=
  phaseDeviation_updates_history id zeroPrims _ 0 (by simp [initialise])

/-- Nonnegativity of the energy envelope metric result. -/
theorem energyEnvelope_nonneg (s : OnsetDetectionFunction) :
    0 ≤ energyEnvelope s := by
  unfold energyEnvelope
  exact sum_map_range_nonneg _ _ fun i _ => mul_self_nonneg _

/-- Nonnegativity of the energy difference metric result. -/
theorem energyDifference_nonneg (s : OnsetDetectionFunction) :
    0 ≤ (energyDifference s).1 := by
  unfold energyDifference
  dsimp only
  split_ifs <;> linarith

/-- Nonnegativity of the spectral difference metric result. -/
theorem spectralDifference_nonneg (fft : FFT) (prims : MathPrims)
    (s : OnsetDetectionFunction) : 0 ≤ (spectralDifference fft prims s).1 := by
  unfold spectralDifference
  dsimp only
  apply sum_map_range_nonneg
  intro i _
  dsimp only
  split_ifs <;> linarith

/-- Nonnegativity of the rectified spectral difference metric result. -/
theorem spectralDifferenceHWR_nonneg (fft : FFT) (prims : MathPrims)
    (s : OnsetDetectionFunction) : 0 ≤ (spectralDifferenceHWR fft prims s).1 := by
  unfold spectralDifferenceHWR
  dsimp only
  apply sum_map_range_nonneg
  intro i _
  dsimp only
  split_ifs <;> linarith

/-- Nonnegativity of the phase deviation metric result. -/
theorem phaseDeviation_nonneg (fft : FFT) (prims : MathPrims)
    (s : OnsetDetectionFunction) : 0 ≤ (phaseDeviation fft prims s).1 := by
  unfold phaseDeviation
  dsimp only
  apply sum_map_range_nonneg
  intro i _
  dsimp only
  split_ifs <;> linarith

/-- Nonnegativity of the complex spectral difference metric result, given a
nonnegative square root primitive. -/
theorem complexSpectralDifference_nonneg (fft : FFT) (prims : MathPrims)
    (s : OnsetDetectionFunction) (hsqrt : ∀ x, 0 ≤ prims.sqrt x) :
    0 ≤ (complexSpectralDifference fft prims s).1 := by
  unfold complexSpectralDifference
  dsimp only
  apply sum_map_range_nonneg
  intro i _
  exact hsqrt _

/-- Nonnegativity of the rectified complex spectral difference metric
result, given a nonnegative square root primitive. -/
theorem complexSpectralDifferenceHWR_nonneg (fft : FFT) (prims : MathPrims)
    (s : OnsetDetectionFunction) (hsqrt : ∀ x, 0 ≤ prims.sqrt x) :
    0 ≤ (complexSpectralDifferenceHWR fft prims s).1 := by
  unfold complexSpectralDifferenceHWR
  dsimp only
  apply sum_map_range_nonneg
  intro i _
  dsimp only
  split_ifs
  · exact hsqrt _
  · exact le_refl 0

/-- Nonnegativity of the high frequency content metric result, given a
nonnegative square root primitive. -/
theorem highFrequencyContent_nonneg (fft : FFT) (prims : MathPrims)
    (s : OnsetDetectionFunction) (hsqrt : ∀ x, 0 ≤ prims.sqrt x) :
    0 ≤ (highFrequencyContent fft prims s).1 := by
  unfold highFrequencyContent
  dsimp only
  apply sum_map_range_nonneg
  intro i hi
  unfold magSpecFull
  rw [getD_map_range _ _ hi]
  exact mul_nonneg (hsqrt _) (by positivity)

/-- Nonnegativity of the high frequency spectral difference metric result. -/
theorem highFrequencySpectralDifference_nonneg (fft : FFT) (prims : MathPrims)
    (s : OnsetDetectionFunction) :
    0 ≤ (highFrequencySpectralDifference fft prims s).1 := by
  unfold highFrequencySpectralDifference
  dsimp only
  apply sum_map_range_nonneg
  intro i _
  dsimp only
  split_ifs
  · exact mul_nonneg (by linarith) (by positivity)
  · exact mul_nonneg (by linarith) (by positivity)

/-- Nonnegativity of the rectified high frequency spectral difference
metric result. -/
theorem highFrequencySpectralDifferenceHWR_nonneg (fft : FFT) (prims : MathPrims)
    (s : OnsetDetectionFunction) :
    0 ≤ (highFrequencySpectralDifferenceHWR fft prims s).1 := by
  unfold highFrequencySpectralDifferenceHWR
  dsimp only
  apply sum_map_range_nonneg
  intro i _
  dsimp only
  split_ifs
  · exact mul_nonneg (by linarith) (by positivity)
  · exact le_refl 0

set_option maxHeartbeats 1000000 in
/-- Nonnegativity of the dispatch result over all metric kinds. -/
theorem applyMetric_nonneg (fft : FFT) (prims : MathPrims)
    (s : OnsetDetectionFunction) (hsqrt : ∀ x, 0 ≤ prims.sqrt x) :
    0 ≤ (applyMetric fft prims s).1 := by
  unfold applyMetric
  dsimp only
  split_ifs
  · exact energyEnvelope_nonneg _
  · exact energyDifference_nonneg _
  · exact spectralDifference_nonneg _ _ _
  · exact spectralDifferenceHWR_nonneg _ _ _
  · exact phaseDeviation_nonneg _ _ _
  · exact complexSpectralDifference_nonneg _ _ _ hsqrt
  · exact complexSpectralDifferenceHWR_nonneg _ _ _ hsqrt
  · exact highFrequencyContent_nonneg _ _ _ hsqrt
  · exact highFrequencySpectralDifference_nonneg _ _ _
  · exact highFrequencySpectralDifferenceHWR_nonneg _ _ _
  · norm_num

/-- C9: whatever the state, the buffer and the metric kind, the value
returned by calculateOnsetDetectionFunctionSample is nonnegative, provided
the injected square root primitive is nonnegative valued (as the real one
is). -/
theorem odf_sample_nonneg (fft : FFT) (prims : MathPrims) (buffer : List ℚ)
    (s : OnsetDetectionFunction) (hsqrt : ∀ x, 0 ≤ prims.sqrt x) :
    0 ≤ (calculateOnsetDetectionFunctionSample fft prims buffer s).1 := by
  unfold calculateOnsetDetectionFunctionSample
  exact applyMetric_nonneg fft prims _ hsqrt

/-- C9 witness: a concrete call returns a nonnegative sample. -/
theorem odf_sample_nonneg_witness :
    0 ≤ (calculateOnsetDetectionFunctionSample id zeroPrims [0] mkBlank).1 :=
  odf_sample_nonneg id zeroPrims [0] mkBlank (fun _ => le_refl 0)

set_option maxHeartbeats 1000000 in
/-- Every metric branch of the dispatch leaves the frame, the sizes, the
selected type and the window untouched. -/
theorem applyMetric_preserves (fft : FFT) (prims : MathPrims)
    (s : OnsetDetectionFunction) :
    (applyMetric fft prims s).2.frame = s.frame ∧
    (applyMetric fft prims s).2.frameSize = s.frameSize ∧
    (applyMetric fft prims s).2.hopSize = s.hopSize ∧
    (applyMetric fft prims s).2.onsetDetectionFunctionType
      = s.onsetDetectionFunctionType ∧
    (applyMetric fft prims s).2.window = s.window := by
  unfold applyMetric
  dsimp only
  split_ifs <;> exact ⟨rfl, rfl, rfl, rfl, rfl⟩

set_option maxHeartbeats 1000000 in
/-- One call to calculateOnsetDetectionFunctionSample rewrites the frame
to the shifted and appended contents and preserves the configuration
fields. -/
theorem calc_state (fft : FFT) (prims : MathPrims) (buffer : List ℚ)
    (s : OnsetDetectionFunction) :
    (calculateOnsetDetectionFunctionSample fft prims buffer s).2.frame
      = shiftFrame s buffer ∧
    (calculateOnsetDetectionFunctionSample fft prims buffer s).2.frameSize
      = s.frameSize ∧
    (calculateOnsetDetectionFunctionSample fft prims buffer s).2.hopSize
      = s.hopSize ∧
    (calculateOnsetDetectionFunctionSample fft prims buffer s).2.onsetDetectionFunctionType
      = s.onsetDetectionFunctionType := by
  unfold calculateOnsetDetectionFunctionSample
  exact ⟨(applyMetric_preserves fft prims _).1,
    (applyMetric_preserves fft prims _).2.1,
    (applyMetric_preserves fft prims _).2.2.1,
    (applyMetric_preserves fft prims _).2.2.2.1⟩

/-- The frame update loop equals dropping the oldest hop sized prefix and
appending the new buffer, whenever the buffer is hop sized and the hop
does not exceed the frame. -/
theorem newFrame_drop_append (F H : ℕ) (frame buffer : List ℚ)
    (hf : frame.length = F) (hb : buffer.length = H) (hh : H ≤ F) :
    ((List.range F).map fun i =>
      if i < F - H then frame.getD (i + H) 0 else buffer.getD (i - (F - H)) 0)
      = frame.drop H ++ buffer := by
  apply List.ext_getElem
  · simp [hf, hb]
    omega
  · intro i h1 h2
    simp only [List.getElem_map, List.getElem_range]
    have hiF : i < F := by simpa using h1
    by_cases hc : i < F - H
    · rw [if_pos hc]
      rw [List.getElem_append_left (by simp [hf]; omega)]
      rw [List.getElem_drop]
      rw [List.getD_eq_getElem _ _ (by omega)]
      congr 1
      omega
    · rw [if_neg hc]
      rw [List.getElem_append_right (by simp [hf]; omega)]
      rw [List.getD_eq_getElem _ _ (by simp [hf, hb] at h2 ⊢; omega)]
      congr 1
      simp [hf]

/-- Length of a flattened list of equal length chunks. -/
theorem flatten_length_const (k : ℕ) (chunks : List (List ℚ))
    (h : ∀ c ∈ chunks, c.length = k) :
    chunks.flatten.length = chunks.length * k := by
  induction chunks with
  | nil => simp
  | cons c cs ih =>
    have hc : c.length = k := h c (List.mem_cons_self _ _)
    have ih' := ih fun x hx => h x (List.mem_cons_of_mem _ hx)
    simp [hc, ih']
    ring

/-- Dropping H then n more equals dropping H + n across an append, when H
stays inside the first part. -/
theorem drop_concat_shift (A B : List ℚ) (H n : ℕ) (hH : H ≤ A.length) :
    (A ++ B).drop (H + n) = (A.drop H ++ B).drop n := by
  rw [List.drop_append_eq_append_drop, List.drop_append_eq_append_drop,
    List.drop_drop]
  have e2 : n - (A.drop H).length = H + n - A.length := by
    simp only [List.length_drop]
    omega
  rw [e2]

/-- Invariant of the chunk feeding loop: the frame always holds the
trailing frameSize samples of the initial frame followed by everything
consumed so far. -/
theorem processChunks_frame (fft : FFT) (prims : MathPrims)
    (chunks : List (List ℚ)) :
    ∀ s : OnsetDetectionFunction,
      s.frame.length = s.frameSize.toNat →
      0 ≤ s.hopSize → s.hopSize ≤ s.frameSize →
      (∀ c ∈ chunks, c.length = s.hopSize.toNat) →
      (processChunks fft prims s chunks).frame
        = (s.frame ++ chunks.flatten).drop
            (s.frame.length + chunks.flatten.length - s.frameSize.toNat) := by
  induction chunks with
  | nil =>
    intro s h1 _ _ _
    simp [processChunks, h1]
  | cons c cs ih =>
    intro s h1 h2 h3 h4
    have hcl : c.length = s.hopSize.toNat := h4 c (List.mem_cons_self _ _)
    have hstep : (calculateOnsetDetectionFunctionSample fft prims c s).2.frame
        = s.frame.drop s.hopSize.toNat ++ c := by
      rw [(calc_state fft prims c s).1]
      unfold shiftFrame
      dsimp only
      have hFH : (s.frameSize - s.hopSize).toNat
          = s.frameSize.toNat - s.hopSize.toNat := by omega
      rw [hFH]
      exact newFrame_drop_append _ _ _ _ h1 hcl (by omega)
    have hF1 : (calculateOnsetDetectionFunctionSample fft prims c s).2.frameSize
        = s.frameSize := (calc_state fft prims c s).2.1
    have hH1 : (calculateOnsetDetectionFunctionSample fft prims c s).2.hopSize
        = s.hopSize := (calc_state fft prims c s).2.2.1
    have hlen1 : (calculateOnsetDetectionFunctionSample fft prims c s).2.frame.length
        = (calculateOnsetDetectionFunctionSample fft prims c s).2.frameSize.toNat := by
      rw [hstep, hF1]
      simp [h1, hcl]
      omega
    have ih' := ih (calculateOnsetDetectionFunctionSample fft prims c s).2 hlen1
      (by rw [hH1]; exact h2) (by rw [hH1, hF1]; exact h3)
      (by intro x hx; rw [hH1]; exact h4 x (List.mem_cons_of_mem _ hx))
    have hunf : processChunks fft prims s (c :: cs)
        = processChunks fft prims (calculateOnsetDetectionFunctionSample fft prims c s).2 cs := rfl
    rw [hunf, ih', hstep, hF1]
    simp only [List.flatten_cons, List.length_append, List.length_drop]
    have e1 : s.frame.length - s.hopSize.toNat + c.length + cs.flatten.length
        - s.frameSize.toNat = cs.flatten.length := by
      rw [h1, hcl]
      omega
    have e2 : s.frame.length + (c.length + cs.flatten.length) - s.frameSize.toNat
        = s.hopSize.toNat + cs.flatten.length := by
      rw [h1, hcl]
      omega
    rw [e1, e2]
    rw [drop_concat_shift _ _ _ _ (by rw [h1]; omega)]
    rw [List.append_assoc]

/-- C2: after feeding N hop sized chunks through consecutive calls, with
N times hopSize at least frameSize, the frame buffer equals exactly the
trailing frameSize samples of the concatenation of the chunks. -/
theorem frame_assembler (fft : FFT) (prims : MathPrims)
    (gIn gOut : List (ℚ × ℚ)) (s0 : OnsetDetectionFunction)
    (h f t w : ℤ) (chunks : List (List ℚ))
    (hh : 0 < h) (hf : h ≤ f)
    (hlen : ∀ c ∈ chunks, c.length = h.toNat)
    (hN : f.toNat ≤ chunks.length * h.toNat) :
    (processChunks fft prims (initialise gIn gOut h f t w prims s0) chunks).frame
      = chunks.flatten.drop (chunks.flatten.length - f.toNat) := by
  have hframe : (initialise gIn gOut h f t w prims s0).frame
      = List.replicate f.toNat 0 := rfl
  have h1 : (initialise gIn gOut h f t w prims s0).frame.length
      = (initialise gIn gOut h f t w prims s0).frameSize.toNat := by
    rw [hframe]
    simp [initialise]
  have hrun := processChunks_frame fft prims chunks
    (initialise gIn gOut h f t w prims s0) h1 (by show 0 ≤ h; omega)
    (by show h ≤ f; exact hf) (by intro c hc; exact hlen c hc)
  rw [hrun, hframe]
  show (List.replicate f.toNat 0 ++ chunks.flatten).drop
      ((List.replicate f.toNat (0:ℚ)).length + chunks.flatten.length - f.toNat) = _
  have hL : chunks.flatten.length = chunks.length * h.toNat :=
    flatten_length_const _ _ hlen
  rw [List.length_replicate]
  have e : f.toNat + chunks.flatten.length - f.toNat = chunks.flatten.length := by
    omega
  rw [e, List.drop_append_eq_append_drop]
  have hnil : (List.replicate f.toNat (0:ℚ)).drop chunks.flatten.length = [] := by
    apply List.drop_eq_nil_of_le
    simp only [List.length_replicate]
    omega
  rw [hnil]
  simp

/-- Dispatch equation: type EnergyEnvelope selects energyEnvelope. -/
theorem applyMetric_ee (fft : FFT) (prims : MathPrims) (v : OnsetDetectionFunction)
    (h : v.onsetDetectionFunctionType = EnergyEnvelope) :
    applyMetric fft prims v = (energyEnvelope v, v) := by
  simp [applyMetric, h]

/-- Dispatch equation: type EnergyDifference selects energyDifference. -/
theorem applyMetric_ed (fft : FFT) (prims : MathPrims) (v : OnsetDetectionFunction)
    (h : v.onsetDetectionFunctionType = EnergyDifference) :
    applyMetric fft prims v = energyDifference v := by
  simp [applyMetric, h, EnergyEnvelope, EnergyDifference]

/-- Dispatch equation: type SpectralDifference selects spectralDifference. -/
theorem applyMetric_sd (fft : FFT) (prims : MathPrims) (v : OnsetDetectionFunction)
    (h : v.onsetDetectionFunctionType = SpectralDifference) :
    applyMetric fft prims v = spectralDifference fft prims v := by
  simp [applyMetric, h, EnergyEnvelope, EnergyDifference, SpectralDifference]

/-- Dispatch equation: type SpectralDifferenceHWR selects
spectralDifferenceHWR. -/
theorem applyMetric_sdhwr (fft : FFT) (prims : MathPrims) (v : OnsetDetectionFunction)
    (h : v.onsetDetectionFunctionType = SpectralDifferenceHWR) :
    applyMetric fft prims v = spectralDifferenceHWR fft prims v := by
  simp [applyMetric, h, EnergyEnvelope, EnergyDifference, SpectralDifference,
    SpectralDifferenceHWR]

/-- Dispatch equation: type PhaseDeviation selects phaseDeviation. -/
theorem applyMetric_pd (fft : FFT) (prims : MathPrims) (v : OnsetDetectionFunction)
    (h : v.onsetDetectionFunctionType = PhaseDeviation) :
    applyMetric fft prims v = phaseDeviation fft prims v := by
  simp [applyMetric, h, EnergyEnvelope, EnergyDifference, SpectralDifference,
    SpectralDifferenceHWR, PhaseDeviation]

/-- Dispatch equation: type ComplexSpectralDifference selects
complexSpectralDifference. -/
theorem applyMetric_csd (fft : FFT) (prims : MathPrims) (v : OnsetDetectionFunction)
    (h : v.onsetDetectionFunctionType = ComplexSpectralDifference) :
    applyMetric fft prims v = complexSpectralDifference fft prims v := by
  simp [applyMetric, h, EnergyEnvelope, EnergyDifference, SpectralDifference,
    SpectralDifferenceHWR, PhaseDeviation, ComplexSpectralDifference]

/-- Dispatch equation: type ComplexSpectralDifferenceHWR selects
complexSpectralDifferenceHWR. -/
theorem applyMetric_csdhwr (fft : FFT) (prims : MathPrims) (v : OnsetDetectionFunction)
    (h : v.onsetDetectionFunctionType = ComplexSpectralDifferenceHWR) :
    applyMetric fft prims v = complexSpectralDifferenceHWR fft prims v := by
  simp [applyMetric, h, EnergyEnvelope, EnergyDifference, SpectralDifference,
    SpectralDifferenceHWR, PhaseDeviation, ComplexSpectralDifference,
    ComplexSpectralDifferenceHWR]

/-- Dispatch equation: type HighFrequencyContent selects
highFrequencyContent. -/
theorem applyMetric_hfc (fft : FFT) (prims : MathPrims) (v : OnsetDetectionFunction)
    (h : v.onsetDetectionFunctionType = HighFrequencyContent) :
    applyMetric fft prims v = highFrequencyContent fft prims v := by
  simp [applyMetric, h, EnergyEnvelope, EnergyDifference, SpectralDifference,
    SpectralDifferenceHWR, PhaseDeviation, ComplexSpectralDifference,
    ComplexSpectralDifferenceHWR, HighFrequencyContent]

/-- Dispatch equation: type HighFrequencySpectralDifference selects
highFrequencySpectralDifference. -/
theorem applyMetric_hfsd (fft : FFT) (prims : MathPrims) (v : OnsetDetectionFunction)
    (h : v.onsetDetectionFunctionType = HighFrequencySpectralDifference) :
    applyMetric fft prims v = highFrequencySpectralDifference fft prims v := by
  simp [applyMetric, h, EnergyEnvelope, EnergyDifference, SpectralDifference,
    SpectralDifferenceHWR, PhaseDeviation, ComplexSpectralDifference,
    ComplexSpectralDifferenceHWR, HighFrequencyContent,
    HighFrequencySpectralDifference]

/-- Dispatch equation: type HighFrequencySpectralDifferenceHWR selects
highFrequencySpectralDifferenceHWR. -/
theorem applyMetric_hfsdhwr (fft : FFT) (prims : MathPrims) (v : OnsetDetectionFunction)
    (h : v.onsetDetectionFunctionType = HighFrequencySpectralDifferenceHWR) :
    applyMetric fft prims v = highFrequencySpectralDifferenceHWR fft prims v := by
  simp [applyMetric, h, EnergyEnvelope, EnergyDifference, SpectralDifference,
    SpectralDifferenceHWR, PhaseDeviation, ComplexSpectralDifference,
    ComplexSpectralDifferenceHWR, HighFrequencyContent,
    HighFrequencySpectralDifference, HighFrequencySpectralDifferenceHWR]

/-- Applying the write loop of performFFT twice with the same frame and
window gives the same transform input as applying it once: written cells
are rewritten with identical values and unwritten cells pass through. -/
theorem windowAndSwap_idem (f w : List ℚ) (c : List (ℚ × ℚ)) (N : ℕ) :
    windowAndSwap f w (windowAndSwap f w c N) N = windowAndSwap f w c N := by
  unfold windowAndSwap
  dsimp only
  apply List.map_congr_left
  intro i hi
  have hiN : i < N := List.mem_range.mp hi
  by_cases h1 : i < N / 2
  · rw [if_pos h1, if_pos h1]
  · rw [if_neg h1, if_neg h1]
    by_cases h2 : i < N / 2 + N / 2
    · rw [if_pos h2, if_pos h2]
    · rw [if_neg h2, if_neg h2]
      rw [getD_map_range _ _ hiN]
      rw [if_neg h1, if_neg h2]

/-- State effect of spectralDifference, read off the definition. -/
theorem spectralDifference_state (fft : FFT) (prims : MathPrims)
    (u : OnsetDetectionFunction) :
    (spectralDifference fft prims u).2.frame = u.frame ∧
    (spectralDifference fft prims u).2.window = u.window ∧
    (spectralDifference fft prims u).2.frameSize = u.frameSize ∧
    (spectralDifference fft prims u).2.onsetDetectionFunctionType
      = u.onsetDetectionFunctionType ∧
    (spectralDifference fft prims u).2.complexIn
      = windowAndSwap u.frame u.window u.complexIn u.frameSize.toNat ∧
    (spectralDifference fft prims u).2.prevMagSpec
      = magSpecMirrored prims
          (fft (windowAndSwap u.frame u.window u.complexIn u.frameSize.toNat))
          u.frameSize.toNat :=
  ⟨rfl, rfl, rfl, rfl, rfl, rfl⟩

/-- State effect of spectralDifferenceHWR, read off the definition. -/
theorem spectralDifferenceHWR_state (fft : FFT) (prims : MathPrims)
    (u : OnsetDetectionFunction) :
    (spectralDifferenceHWR fft prims u).2.frame = u.frame ∧
    (spectralDifferenceHWR fft prims u).2.window = u.window ∧
    (spectralDifferenceHWR fft prims u).2.frameSize = u.frameSize ∧
    (spectralDifferenceHWR fft prims u).2.onsetDetectionFunctionType
      = u.onsetDetectionFunctionType ∧
    (spectralDifferenceHWR fft prims u).2.complexIn
      = windowAndSwap u.frame u.window u.complexIn u.frameSize.toNat ∧
    (spectralDifferenceHWR fft prims u).2.prevMagSpec
      = magSpecMirrored prims
          (fft (windowAndSwap u.frame u.window u.complexIn u.frameSize.toNat))
          u.frameSize.toNat :=
  ⟨rfl, rfl, rfl, rfl, rfl, rfl⟩

/-- State effect of complexSpectralDifferenceHWR, read off the
definition. -/
theorem complexSpectralDifferenceHWR_state (fft : FFT) (prims : MathPrims)
    (u : OnsetDetectionFunction) :
    (complexSpectralDifferenceHWR fft prims u).2.frame = u.frame ∧
    (complexSpectralDifferenceHWR fft prims u).2.window = u.window ∧
    (complexSpectralDifferenceHWR fft prims u).2.frameSize = u.frameSize ∧
    (complexSpectralDifferenceHWR fft prims u).2.onsetDetectionFunctionType
      = u.onsetDetectionFunctionType ∧
    (complexSpectralDifferenceHWR fft prims u).2.complexIn
      = windowAndSwap u.frame u.window u.complexIn u.frameSize.toNat ∧
    (complexSpectralDifferenceHWR fft prims u).2.prevMagSpec
      = magSpecFull prims
          (fft (windowAndSwap u.frame u.window u.complexIn u.frameSize.toNat))
          u.frameSize.toNat :=
  ⟨rfl, rfl, rfl, rfl, rfl, rfl⟩

/-- On a state whose transform input is already settled and whose previous
magnitude spectrum matches the current one, spectralDifference returns
zero. -/
theorem spectralDifference_settled (fft : FFT) (prims : MathPrims)
    (v : OnsetDetectionFunction)
    (hcin : windowAndSwap v.frame v.window v.complexIn v.frameSize.toNat
      = v.complexIn)
    (hprev : v.prevMagSpec
      = magSpecMirrored prims (fft v.complexIn) v.frameSize.toNat) :
    (spectralDifference fft prims v).1 = 0 := by
  unfold spectralDifference performFFT
  dsimp only
  rw [hcin]
  apply sum_map_range_eq_zero
  intro i hi
  dsimp only
  rw [hprev]
  simp

/-- On a settled state spectralDifferenceHWR returns zero. -/
theorem spectralDifferenceHWR_settled (fft : FFT) (prims : MathPrims)
    (v : OnsetDetectionFunction)
    (hcin : windowAndSwap v.frame v.window v.complexIn v.frameSize.toNat
      = v.complexIn)
    (hprev : v.prevMagSpec
      = magSpecMirrored prims (fft v.complexIn) v.frameSize.toNat) :
    (spectralDifferenceHWR fft prims v).1 = 0 := by
  unfold spectralDifferenceHWR performFFT
  dsimp only
  rw [hcin]
  apply sum_map_range_eq_zero
  intro i hi
  dsimp only
  rw [hprev]
  simp

/-- On a settled state complexSpectralDifferenceHWR returns zero: no bin
shows a magnitude increase, so every bin is rectified away. -/
theorem complexSpectralDifferenceHWR_settled (fft : FFT) (prims : MathPrims)
    (v : OnsetDetectionFunction)
    (hcin : windowAndSwap v.frame v.window v.complexIn v.frameSize.toNat
      = v.complexIn)
    (hprev : v.prevMagSpec
      = magSpecFull prims (fft v.complexIn) v.frameSize.toNat) :
    (complexSpectralDifferenceHWR fft prims v).1 = 0 := by
  unfold complexSpectralDifferenceHWR performFFT
  dsimp only
  rw [hcin]
  apply sum_map_range_eq_zero
  intro i hi
  dsimp only
  rw [hprev]
  simp

/-- C6 amended: when two consecutive calls receive identical chunks and
produce identical frames, the Spectral Difference metrics (plain and
rectified) and the rectified Complex Spectral Difference metric return 0.0
on the second call; the plain Complex Spectral Difference metric is
excluded (see the counterexample). -/
theorem second_identical_call_zero (fft : FFT) (prims : MathPrims)
    (s : OnsetDetectionFunction) (c : List ℚ)
    (ht : s.onsetDetectionFunctionType = SpectralDifference ∨
          s.onsetDetectionFunctionType = SpectralDifferenceHWR ∨
          s.onsetDetectionFunctionType = ComplexSpectralDifferenceHWR)
    (hframe : (calculateOnsetDetectionFunctionSample fft prims c s).2.frame
      = (calculateOnsetDetectionFunctionSample fft prims c
          (calculateOnsetDetectionFunctionSample fft prims c s).2).2.frame) :
    (calculateOnsetDetectionFunctionSample fft prims c
      (calculateOnsetDetectionFunctionSample fft prims c s).2).1 = 0 := by
  rcases ht with h | h | h
  · have hu1 : calculateOnsetDetectionFunctionSample fft prims c s
        = spectralDifference fft prims { s with frame := shiftFrame s c } := by
      unfold calculateOnsetDetectionFunctionSample
      exact applyMetric_sd fft prims _ h
    set u : OnsetDetectionFunction := { s with frame := shiftFrame s c } with hu
    set v : OnsetDetectionFunction := (spectralDifference fft prims u).2 with hv
    have ht1 : v.onsetDetectionFunctionType = SpectralDifference := by
      rw [hv, (spectralDifference_state fft prims u).2.2.2.1]
      exact h
    have hu2 : calculateOnsetDetectionFunctionSample fft prims c v
        = spectralDifference fft prims { v with frame := shiftFrame v c } := by
      unfold calculateOnsetDetectionFunctionSample
      exact applyMetric_sd fft prims _ ht1
    rw [hu1] at hframe ⊢
    rw [hu2] at hframe ⊢
    have hff : shiftFrame v c = v.frame := by
      have e := (spectralDifference_state fft prims
        { v with frame := shiftFrame v c }).1
      rw [e] at hframe
      exact hframe.symm
    have hvv : ({ v with frame := shiftFrame v c } : OnsetDetectionFunction) = v := by
      rw [hff]
    rw [hvv]
    have e1 : v.complexIn
        = windowAndSwap u.frame u.window u.complexIn u.frameSize.toNat :=
      (spectralDifference_state fft prims u).2.2.2.2.1
    have e2 : v.frame = u.frame := (spectralDifference_state fft prims u).1
    have e3 : v.window = u.window := (spectralDifference_state fft prims u).2.1
    have e4 : v.frameSize = u.frameSize :=
      (spectralDifference_state fft prims u).2.2.1
    apply spectralDifference_settled
    · rw [e1, e2, e3, e4]
      exact windowAndSwap_idem _ _ _ _
    · have e5 := (spectralDifference_state fft prims u).2.2.2.2.2
      rw [e5, ← e1, ← e4]
  · have hu1 : calculateOnsetDetectionFunctionSample fft prims c s
        = spectralDifferenceHWR fft prims { s with frame := shiftFrame s c } := by
      unfold calculateOnsetDetectionFunctionSample
      exact applyMetric_sdhwr fft prims _ h
    set u : OnsetDetectionFunction := { s with frame := shiftFrame s c } with hu
    set v : OnsetDetectionFunction := (spectralDifferenceHWR fft prims u).2 with hv
    have ht1 : v.onsetDetectionFunctionType = SpectralDifferenceHWR := by
      rw [hv, (spectralDifferenceHWR_state fft prims u).2.2.2.1]
      exact h
    have hu2 : calculateOnsetDetectionFunctionSample fft prims c v
        = spectralDifferenceHWR fft prims { v with frame := shiftFrame v c } := by
      unfold calculateOnsetDetectionFunctionSample
      exact applyMetric_sdhwr fft prims _ ht1
    rw [hu1] at hframe ⊢
    rw [hu2] at hframe ⊢
    have hff : shiftFrame v c = v.frame := by
      have e := (spectralDifferenceHWR_state fft prims
        { v with frame := shiftFrame v c }).1
      rw [e] at hframe
      exact hframe.symm
    have hvv : ({ v with frame := shiftFrame v c } : OnsetDetectionFunction) = v := by
      rw [hff]
    rw [hvv]
    have e1 : v.complexIn
        = windowAndSwap u.frame u.window u.complexIn u.frameSize.toNat :=
      (spectralDifferenceHWR_state fft prims u).2.2.2.2.1
    have e2 : v.frame = u.frame := (spectralDifferenceHWR_state fft prims u).1
    have e3 : v.window = u.window := (spectralDifferenceHWR_state fft prims u).2.1
    have e4 : v.frameSize = u.frameSize :=
      (spectralDifferenceHWR_state fft prims u).2.2.1
    apply spectralDifferenceHWR_settled
    · rw [e1, e2, e3, e4]
      exact windowAndSwap_idem _ _ _ _
    · have e5 := (spectralDifferenceHWR_state fft prims u).2.2.2.2.2
      rw [e5, ← e1, ← e4]
  · have hu1 : calculateOnsetDetectionFunctionSample fft prims c s
        = complexSpectralDifferenceHWR fft prims
            { s with frame := shiftFrame s c } := by
      unfold calculateOnsetDetectionFunctionSample
      exact applyMetric_csdhwr fft prims _ h
    set u : OnsetDetectionFunction := { s with frame := shiftFrame s c } with hu
    set v : OnsetDetectionFunction :=
      (complexSpectralDifferenceHWR fft prims u).2 with hv
    have ht1 : v.onsetDetectionFunctionType = ComplexSpectralDifferenceHWR := by
      rw [hv, (complexSpectralDifferenceHWR_state fft prims u).2.2.2.1]
      exact h
    have hu2 : calculateOnsetDetectionFunctionSample fft prims c v
        = complexSpectralDifferenceHWR fft prims
            { v with frame := shiftFrame v c } := by
      unfold calculateOnsetDetectionFunctionSample
      exact applyMetric_csdhwr fft prims _ ht1
    rw [hu1] at hframe ⊢
    rw [hu2] at hframe ⊢
    have hff : shiftFrame v c = v.frame := by
      have e := (complexSpectralDifferenceHWR_state fft prims
        { v with frame := shiftFrame v c }).1
      rw [e] at hframe
      exact hframe.symm
    have hvv : ({ v with frame := shiftFrame v c } : OnsetDetectionFunction) = v := by
      rw [hff]
    rw [hvv]
    have e1 : v.complexIn
        = windowAndSwap u.frame u.window u.complexIn u.frameSize.toNat :=
      (complexSpectralDifferenceHWR_state fft prims u).2.2.2.2.1
    have e2 : v.frame = u.frame :=
      (complexSpectralDifferenceHWR_state fft prims u).1
    have e3 : v.window = u.window :=
      (complexSpectralDifferenceHWR_state fft prims u).2.1
    have e4 : v.frameSize = u.frameSize :=
      (complexSpectralDifferenceHWR_state fft prims u).2.2.1
    apply complexSpectralDifferenceHWR_settled
    · rw [e1, e2, e3, e4]
      exact windowAndSwap_idem _ _ _ _
    · have e5 := (complexSpectralDifferenceHWR_state fft prims u).2.2.2.2.2
      rw [e5, ← e1, ← e4]

/-- C6 witness: with the Spectral Difference metric, two identical calls
on a frame size one engine produce identical frames and the second call
returns zero. -/
theorem second_identical_call_zero_witness :
    (calculateOnsetDetectionFunctionSample id zeroPrims [5]
      (calculateOnsetDetectionFunctionSample id zeroPrims [5]
        (initialise [] [] 1 1 SpectralDifference RectangularWindow zeroPrims
          mkBlank)).2).1 = 0 :=
  second_identical_call_zero id zeroPrims _ [5] (Or.inl rfl)
    (by norm_num [calculateOnsetDetectionFunctionSample, applyMetric,
      shiftFrame, spectralDifference, performFFT, windowAndSwap,
      magSpecMirrored, magAt, initialise, resizeQ, resizeC,
      calculateRectangularWindow, zeroPrims, mkBlank, EnergyEnvelope,
      EnergyDifference, SpectralDifference, List.range_succ])

set_option maxHeartbeats 4000000 in
/-- C6 counterexample: the plain Complex Spectral Difference metric does
not return zero on the second of two identical calls.  Frame size two,
hop size two, rectangular window, the exact size two transform and
primitives matching the real ones at every reached point: both calls see
the frame [1, 0], the second call still returns 2 because its phase
deviation term sees the pre call phase history (dev = phase - 2*phase + 0
= -pi at bin one), not zero. -/
theorem csd_second_identical_call_counterexample :
    ((calculateOnsetDetectionFunctionSample dft2 csdPrims [1, 0]
        (initialise [] [] 2 2 ComplexSpectralDifference RectangularWindow
          csdPrims mkBlank)).2.frame
      = (calculateOnsetDetectionFunctionSample dft2 csdPrims [1, 0]
          (calculateOnsetDetectionFunctionSample dft2 csdPrims [1, 0]
            (initialise [] [] 2 2 ComplexSpectralDifference RectangularWindow
              csdPrims mkBlank)).2).2.frame) ∧
    (calculateOnsetDetectionFunctionSample dft2 csdPrims [1, 0]
        (calculateOnsetDetectionFunctionSample dft2 csdPrims [1, 0]
          (initialise [] [] 2 2 ComplexSpectralDifference RectangularWindow
            csdPrims mkBlank)).2).1 = 2 ∧ (2 : ℚ) ≠ 0 := by
  refine ⟨?_, ?_, by norm_num⟩ <;>
    norm_num [calculateOnsetDetectionFunctionSample, applyMetric,
      shiftFrame, complexSpectralDifference, performFFT, windowAndSwap,
      magSpecFull, phaseList, magAt, copyN, initialise, resizeQ, resizeC,
      calculateRectangularWindow, csdPrims, dft2, mkBlank, pi,
      EnergyEnvelope, EnergyDifference, SpectralDifference,
      SpectralDifferenceHWR, PhaseDeviation, ComplexSpectralDifference,
      (show ((2 : ℤ)).toNat = 2 from rfl),
      (show ((2 : ℤ) - 2).toNat = 0 from rfl), List.range_succ]

/-- Dispatch equation: any type outside the ten enum values falls through
to the default branch returning 1.0 and leaving the state alone. -/
theorem applyMetric_default (fft : FFT) (prims : MathPrims)
    (v : OnsetDetectionFunction)
    (hv : v.onsetDetectionFunctionType < 0 ∨ 9 < v.onsetDetectionFunctionType) :
    applyMetric fft prims v = (1.0, v) := by
  have h0 : ¬ v.onsetDetectionFunctionType = EnergyEnvelope := by
    unfold EnergyEnvelope; omega
  have h1 : ¬ v.onsetDetectionFunctionType = EnergyDifference := by
    unfold EnergyDifference; omega
  have h2 : ¬ v.onsetDetectionFunctionType = SpectralDifference := by
    unfold SpectralDifference; omega
  have h3 : ¬ v.onsetDetectionFunctionType = SpectralDifferenceHWR := by
    unfold SpectralDifferenceHWR; omega
  have h4 : ¬ v.onsetDetectionFunctionType = PhaseDeviation := by
    unfold PhaseDeviation; omega
  have h5 : ¬ v.onsetDetectionFunctionType = ComplexSpectralDifference := by
    unfold ComplexSpectralDifference; omega
  have h6 : ¬ v.onsetDetectionFunctionType = ComplexSpectralDifferenceHWR := by
    unfold ComplexSpectralDifferenceHWR; omega
  have h7 : ¬ v.onsetDetectionFunctionType = HighFrequencyContent := by
    unfold HighFrequencyContent; omega
  have h8 : ¬ v.onsetDetectionFunctionType = HighFrequencySpectralDifference := by
    unfold HighFrequencySpectralDifference; omega
  have h9 : ¬ v.onsetDetectionFunctionType = HighFrequencySpectralDifferenceHWR := by
    unfold HighFrequencySpectralDifferenceHWR; omega
  simp [applyMetric, h0, h1, h2, h3, h4, h5, h6, h7, h8, h9]

/-- With an even frame size, windowing an all zero frame overwrites every
transform input cell with zero. -/
theorem windowAndSwap_zero (w : List ℚ) (c : List (ℚ × ℚ)) (N : ℕ)
    (heven : N % 2 = 0) :
    windowAndSwap (List.replicate N 0) w c N = List.replicate N (0, 0) := by
  unfold windowAndSwap
  dsimp only
  apply List.ext_getElem
  · simp
  · intro i h1 h2
    simp only [List.getElem_map, List.getElem_range, List.getElem_replicate]
    have hiN : i < N := by simpa using h1
    by_cases ha : i < N / 2
    · rw [if_pos ha, getD_replicate_zero, zero_mul]
    · rw [if_neg ha]
      by_cases hb : i < N / 2 + N / 2
      · rw [if_pos hb, getD_replicate_zero, zero_mul]
      · exfalso
        omega

/-- Shifting an all zero frame and appending an all zero buffer keeps the
frame all zero. -/
theorem shiftFrame_zero (s : OnsetDetectionFunction) (k : ℕ)
    (hfr : s.frame = List.replicate s.frameSize.toNat 0) :
    shiftFrame s (List.replicate k 0) = List.replicate s.frameSize.toNat 0 := by
  unfold shiftFrame
  dsimp only
  apply List.ext_getElem
  · simp
  · intro i h1 h2
    simp only [List.getElem_map, List.getElem_range, List.getElem_replicate]
    split_ifs
    · rw [hfr, getD_replicate_zero]
    · rw [getD_replicate_zero]

/-- Bin magnitude of an all zero transform output, given sqrt 0 = 0. -/
theorem magAt_zero (prims : MathPrims) (N j : ℕ) (hsq : prims.sqrt 0 = 0) :
    magAt prims (List.replicate N (0, 0)) j = 0 := by
  unfold magAt
  rw [getD_replicate_zeroC]
  norm_num [hsq]

/-- Mirrored magnitude spectrum of an all zero transform output is zero at
every bin. -/
theorem magMirrored_zero (prims : MathPrims) (N j : ℕ) (hj : j < N)
    (hsq : prims.sqrt 0 = 0) :
    (magSpecMirrored prims (List.replicate N (0, 0)) N).getD j 0 = 0 := by
  unfold magSpecMirrored
  rw [getD_map_range _ _ hj]
  split_ifs <;> exact magAt_zero prims N _ hsq

/-- Direct magnitude spectrum of an all zero transform output is zero at
every bin. -/
theorem magFull_zero (prims : MathPrims) (N j : ℕ) (hj : j < N)
    (hsq : prims.sqrt 0 = 0) :
    (magSpecFull prims (List.replicate N (0, 0)) N).getD j 0 = 0 := by
  unfold magSpecFull
  rw [getD_map_range _ _ hj]
  exact magAt_zero prims N _ hsq

/-- Energy envelope of an all zero frame. -/
theorem energyEnvelope_silent (v : OnsetDetectionFunction)
    (hfr : v.frame = List.replicate v.frameSize.toNat 0) :
    energyEnvelope v = 0 := by
  unfold energyEnvelope
  rw [hfr]
  apply sum_map_range_eq_zero
  intro i _
  rw [getD_replicate_zero]
  norm_num

/-- Energy difference on an all zero frame with zero history. -/
theorem energyDifference_silent (v : OnsetDetectionFunction)
    (hfr : v.frame = List.replicate v.frameSize.toNat 0)
    (hpe : v.prevEnergySum = 0) :
    (energyDifference v).1 = 0 := by
  unfold energyDifference
  dsimp only
  rw [hfr, hpe]
  have hs : ((List.range v.frameSize.toNat).map fun i =>
      (List.replicate v.frameSize.toNat (0 : ℚ)).getD i 0
        * (List.replicate v.frameSize.toNat (0 : ℚ)).getD i 0).sum = 0 := by
    apply sum_map_range_eq_zero
    intro i _
    rw [getD_replicate_zero]
    norm_num
  rw [hs]
  norm_num

/-- Spectral difference on an all zero frame with zero history and even
frame size. -/
theorem spectralDifference_silent (fft : FFT) (prims : MathPrims)
    (v : OnsetDetectionFunction)
    (hfr : v.frame = List.replicate v.frameSize.toNat 0)
    (hpm : v.prevMagSpec = List.replicate v.frameSize.toNat 0)
    (heven : v.frameSize.toNat % 2 = 0) (hsq : prims.sqrt 0 = 0)
    (hfft : ∀ n, fft (List.replicate n ((0 : ℚ), (0 : ℚ)))
      = List.replicate n (0, 0)) :
    (spectralDifference fft prims v).1 = 0 := by
  unfold spectralDifference performFFT
  dsimp only
  rw [hfr, windowAndSwap_zero _ _ _ heven, hfft]
  apply sum_map_range_eq_zero
  intro i hi
  dsimp only
  rw [magMirrored_zero prims _ _ hi hsq, hpm, getD_replicate_zero]
  norm_num

/-- Rectified spectral difference on an all zero frame with zero history
and even frame size. -/
theorem spectralDifferenceHWR_silent (fft : FFT) (prims : MathPrims)
    (v : OnsetDetectionFunction)
    (hfr : v.frame = List.replicate v.frameSize.toNat 0)
    (hpm : v.prevMagSpec = List.replicate v.frameSize.toNat 0)
    (heven : v.frameSize.toNat % 2 = 0) (hsq : prims.sqrt 0 = 0)
    (hfft : ∀ n, fft (List.replicate n ((0 : ℚ), (0 : ℚ)))
      = List.replicate n (0, 0)) :
    (spectralDifferenceHWR fft prims v).1 = 0 := by
  unfold spectralDifferenceHWR performFFT
  dsimp only
  rw [hfr, windowAndSwap_zero _ _ _ heven, hfft]
  apply sum_map_range_eq_zero
  intro i hi
  dsimp only
  rw [magMirrored_zero prims _ _ hi hsq, hpm, getD_replicate_zero]
  norm_num

/-- Phase deviation on an all zero frame with even frame size: every bin
magnitude is zero, below the 0.1 gate. -/
theorem phaseDeviation_silent (fft : FFT) (prims : MathPrims)
    (v : OnsetDetectionFunction)
    (hfr : v.frame = List.replicate v.frameSize.toNat 0)
    (heven : v.frameSize.toNat % 2 = 0) (hsq : prims.sqrt 0 = 0)
    (hfft : ∀ n, fft (List.replicate n ((0 : ℚ), (0 : ℚ)))
      = List.replicate n (0, 0)) :
    (phaseDeviation fft prims v).1 = 0 := by
  unfold phaseDeviation performFFT
  dsimp only
  rw [hfr, windowAndSwap_zero _ _ _ heven, hfft]
  apply sum_map_range_eq_zero
  intro i hi
  dsimp only
  rw [magFull_zero prims _ _ hi hsq]
  norm_num

/-- Complex spectral difference on an all zero frame with zero history and
even frame size. -/
theorem complexSpectralDifference_silent (fft : FFT) (prims : MathPrims)
    (v : OnsetDetectionFunction)
    (hfr : v.frame = List.replicate v.frameSize.toNat 0)
    (hpm : v.prevMagSpec = List.replicate v.frameSize.toNat 0)
    (heven : v.frameSize.toNat % 2 = 0) (hsq : prims.sqrt 0 = 0)
    (hfft : ∀ n, fft (List.replicate n ((0 : ℚ), (0 : ℚ)))
      = List.replicate n (0, 0)) :
    (complexSpectralDifference fft prims v).1 = 0 := by
  unfold complexSpectralDifference performFFT
  dsimp only
  rw [hfr, windowAndSwap_zero _ _ _ heven, hfft]
  apply sum_map_range_eq_zero
  intro i hi
  dsimp only
  rw [magFull_zero prims _ _ hi hsq, hpm, getD_replicate_zero]
  norm_num [hsq]

/-- Rectified complex spectral difference on an all zero frame with zero
history and even frame size. -/
theorem complexSpectralDifferenceHWR_silent (fft : FFT) (prims : MathPrims)
    (v : OnsetDetectionFunction)
    (hfr : v.frame = List.replicate v.frameSize.toNat 0)
    (hpm : v.prevMagSpec = List.replicate v.frameSize.toNat 0)
    (heven : v.frameSize.toNat % 2 = 0) (hsq : prims.sqrt 0 = 0)
    (hfft : ∀ n, fft (List.replicate n ((0 : ℚ), (0 : ℚ)))
      = List.replicate n (0, 0)) :
    (complexSpectralDifferenceHWR fft prims v).1 = 0 := by
  unfold complexSpectralDifferenceHWR performFFT
  dsimp only
  rw [hfr, windowAndSwap_zero _ _ _ heven, hfft]
  apply sum_map_range_eq_zero
  intro i hi
  dsimp only
  rw [magFull_zero prims _ _ hi hsq, hpm, getD_replicate_zero]
  norm_num

/-- High frequency content on an all zero frame with even frame size. -/
theorem highFrequencyContent_silent (fft : FFT) (prims : MathPrims)
    (v : OnsetDetectionFunction)
    (hfr : v.frame = List.replicate v.frameSize.toNat 0)
    (heven : v.frameSize.toNat % 2 = 0) (hsq : prims.sqrt 0 = 0)
    (hfft : ∀ n, fft (List.replicate n ((0 : ℚ), (0 : ℚ)))
      = List.replicate n (0, 0)) :
    (highFrequencyContent fft prims v).1 = 0 := by
  unfold highFrequencyContent performFFT
  dsimp only
  rw [hfr, windowAndSwap_zero _ _ _ heven, hfft]
  apply sum_map_range_eq_zero
  intro i hi
  rw [magFull_zero prims _ _ hi hsq]
  norm_num

/-- High frequency spectral difference on an all zero frame with zero
history and even frame size. -/
theorem highFrequencySpectralDifference_silent (fft : FFT) (prims : MathPrims)
    (v : OnsetDetectionFunction)
    (hfr : v.frame = List.replicate v.frameSize.toNat 0)
    (hpm : v.prevMagSpec = List.replicate v.frameSize.toNat 0)
    (heven : v.frameSize.toNat % 2 = 0) (hsq : prims.sqrt 0 = 0)
    (hfft : ∀ n, fft (List.replicate n ((0 : ℚ), (0 : ℚ)))
      = List.replicate n (0, 0)) :
    (highFrequencySpectralDifference fft prims v).1 = 0 := by
  unfold highFrequencySpectralDifference performFFT
  dsimp only
  rw [hfr, windowAndSwap_zero _ _ _ heven, hfft]
  apply sum_map_range_eq_zero
  intro i hi
  dsimp only
  rw [magFull_zero prims _ _ hi hsq, hpm, getD_replicate_zero]
  norm_num

/-- Rectified high frequency spectral difference on an all zero frame with
zero history and even frame size. -/
theorem highFrequencySpectralDifferenceHWR_silent (fft : FFT) (prims : MathPrims)
    (v : OnsetDetectionFunction)
    (hfr : v.frame = List.replicate v.frameSize.toNat 0)
    (hpm : v.prevMagSpec = List.replicate v.frameSize.toNat 0)
    (heven : v.frameSize.toNat % 2 = 0) (hsq : prims.sqrt 0 = 0)
    (hfft : ∀ n, fft (List.replicate n ((0 : ℚ), (0 : ℚ)))
      = List.replicate n (0, 0)) :
    (highFrequencySpectralDifferenceHWR fft prims v).1 = 0 := by
  unfold highFrequencySpectralDifferenceHWR performFFT
  dsimp only
  rw [hfr, windowAndSwap_zero _ _ _ heven, hfft]
  apply sum_map_range_eq_zero
  intro i hi
  dsimp only
  rw [magFull_zero prims _ _ hi hsq, hpm, getD_replicate_zero]
  norm_num

/-- Each of the ten defined metrics returns zero on a state with all zero
frame, zero history and even frame size. -/
theorem applyMetric_silent (fft : FFT) (prims : MathPrims)
    (v : OnsetDetectionFunction)
    (hfr : v.frame = List.replicate v.frameSize.toNat 0)
    (hpm : v.prevMagSpec = List.replicate v.frameSize.toNat 0)
    (hpe : v.prevEnergySum = 0)
    (heven : v.frameSize.toNat % 2 = 0) (hsq : prims.sqrt 0 = 0)
    (hfft : ∀ n, fft (List.replicate n ((0 : ℚ), (0 : ℚ)))
      = List.replicate n (0, 0))
    (ht0 : 0 ≤ v.onsetDetectionFunctionType)
    (ht9 : v.onsetDetectionFunctionType ≤ 9) :
    (applyMetric fft prims v).1 = 0 := by
  have henum : v.onsetDetectionFunctionType = 0 ∨ v.onsetDetectionFunctionType = 1
      ∨ v.onsetDetectionFunctionType = 2 ∨ v.onsetDetectionFunctionType = 3
      ∨ v.onsetDetectionFunctionType = 4 ∨ v.onsetDetectionFunctionType = 5
      ∨ v.onsetDetectionFunctionType = 6 ∨ v.onsetDetectionFunctionType = 7
      ∨ v.onsetDetectionFunctionType = 8 ∨ v.onsetDetectionFunctionType = 9 := by
    omega
  rcases henum with h | h | h | h | h | h | h | h | h | h
  · rw [applyMetric_ee fft prims v h]
    exact energyEnvelope_silent v hfr
  · rw [applyMetric_ed fft prims v h]
    exact energyDifference_silent v hfr hpe
  · rw [applyMetric_sd fft prims v h]
    exact spectralDifference_silent fft prims v hfr hpm heven hsq hfft
  · rw [applyMetric_sdhwr fft prims v h]
    exact spectralDifferenceHWR_silent fft prims v hfr hpm heven hsq hfft
  · rw [applyMetric_pd fft prims v h]
    exact phaseDeviation_silent fft prims v hfr heven hsq hfft
  · rw [applyMetric_csd fft prims v h]
    exact complexSpectralDifference_silent fft prims v hfr hpm heven hsq hfft
  · rw [applyMetric_csdhwr fft prims v h]
    exact complexSpectralDifferenceHWR_silent fft prims v hfr hpm heven hsq hfft
  · rw [applyMetric_hfc fft prims v h]
    exact highFrequencyContent_silent fft prims v hfr heven hsq hfft
  · rw [applyMetric_hfsd fft prims v h]
    exact highFrequencySpectralDifference_silent fft prims v hfr hpm heven hsq hfft
  · rw [applyMetric_hfsdhwr fft prims v h]
    exact highFrequencySpectralDifferenceHWR_silent fft prims v hfr hpm heven hsq hfft

/-- C3 amended: for every valid configuration with even frame size (the
transform input is then fully overwritten), configure followed by one call
on an all zero buffer returns 0.0 for each of the ten defined metrics, and
1.0 for a metric kind outside them; the square root and transform
primitives are only assumed to send zero to zero, as the real ones do. -/
theorem first_call_silence (fft : FFT) (prims : MathPrims)
    (gIn gOut : List (ℚ × ℚ)) (s0 : OnsetDetectionFunction)
    (h f t w : ℤ) (hh : 0 < h) (hf : h ≤ f) (heven : f % 2 = 0)
    (hsq : prims.sqrt 0 = 0)
    (hfft : ∀ n, fft (List.replicate n ((0 : ℚ), (0 : ℚ)))
      = List.replicate n (0, 0)) :
    ((0 ≤ t ∧ t ≤ 9) →
      (calculateOnsetDetectionFunctionSample fft prims
        (List.replicate h.toNat 0)
        (initialise gIn gOut h f t w prims s0)).1 = 0) ∧
    ((t < 0 ∨ 9 < t) →
      (calculateOnsetDetectionFunctionSample fft prims
        (List.replicate h.toNat 0)
        (initialise gIn gOut h f t w prims s0)).1 = 1.0) := by
  have hfr0 : (initialise gIn gOut h f t w prims s0).frame
      = List.replicate (initialise gIn gOut h f t w prims s0).frameSize.toNat 0 :=
    rfl
  constructor
  · rintro ⟨ht0, ht9⟩
    exact applyMetric_silent fft prims
      { initialise gIn gOut h f t w prims s0 with
          frame := shiftFrame (initialise gIn gOut h f t w prims s0)
            (List.replicate h.toNat 0) }
      (shiftFrame_zero _ _ hfr0) rfl rfl (by show f.toNat % 2 = 0; omega)
      hsq hfft ht0 ht9
  · intro hout
    exact congrArg Prod.fst (applyMetric_default fft prims
      { initialise gIn gOut h f t w prims s0 with
          frame := shiftFrame (initialise gIn gOut h f t w prims s0)
            (List.replicate h.toNat 0) } hout)

/-- C3 witness: frame size two, hop size one, energy envelope metric; the
first call on an all zero buffer returns zero. -/
theorem first_call_silence_witness :
    (calculateOnsetDetectionFunctionSample id zeroPrims
      (List.replicate (1 : ℤ).toNat 0)
      (initialise [] [] 1 2 EnergyEnvelope RectangularWindow zeroPrims
        mkBlank)).1 = 0 :=
  (first_call_silence id zeroPrims [] [] mkBlank 1 2 EnergyEnvelope
    RectangularWindow (by norm_num) (by norm_num) (by norm_num) rfl
    (fun _ => rfl)).1 ⟨by norm_num [EnergyEnvelope], by norm_num [EnergyEnvelope]⟩

/-- C3 counterexample: with the odd frame size one the write loop of
performFFT writes nothing, so the transform reads the uninitialised
fftw_malloc buffer (modelled by gIn = [(1, 0)]).  A spectral difference
call on an all zero input buffer after a fresh initialise then returns 1,
not 0.0, for this perfectly valid configuration (hopSize 1, frameSize 1):
the result depends on uninitialised memory. -/
theorem silence_odd_frame_counterexample :
    (calculateOnsetDetectionFunctionSample id oddPrims [0]
      (initialise [(1, 0)] [] 1 1 SpectralDifference RectangularWindow
        oddPrims mkBlank)).1 = 1 ∧ (1 : ℚ) ≠ 0 := by
  refine ⟨?_, by norm_num⟩
  norm_num [calculateOnsetDetectionFunctionSample, applyMetric, shiftFrame,
    spectralDifference, performFFT, windowAndSwap, magSpecMirrored, magAt,
    initialise, resizeQ, resizeC, calculateRectangularWindow, oddPrims,
    mkBlank, EnergyEnvelope, EnergyDifference, SpectralDifference,
    (show ((1 : ℤ)).toNat = 1 from rfl),
    (show ((1 : ℤ) - 1).toNat = 0 from rfl), List.range_succ]

/-- C2 witness: frame size two, hop size one, two chunks; the final frame
is the concatenation of the two one sample chunks. -/
theorem frame_assembler_witness :
    (processChunks id zeroPrims
      (initialise [] [] 1 2 EnergyEnvelope RectangularWindow zeroPrims mkBlank)
      [[1], [2]]).frame
      = ([[1], [2]] : List (List ℚ)).flatten.drop
          (([[1], [2]] : List (List ℚ)).flatten.length - (2 : ℤ).toNat) :=
  frame_assembler id zeroPrims [] [] mkBlank 1 2 EnergyEnvelope
    RectangularWindow [[1], [2]] (by norm_num) (by norm_num)
    (by intro c hc; simp at hc; rcases hc with rfl | rfl <;> rfl)
    (by simp)

end OnsetDetectionFunction
